import Mathlib

/-!
Shallow embedding of the gap-analyzer server (src/index.js, src/unnamed/part_000,
src/unnamed/part_001).  The server orchestrates, per `/search` request, one
topic-suggestion model call followed by a sequential per-topic pipeline
(fetch, extract, analyse, parse, persist).  External collaborators (the
language-model API, axios, cheerio, JSON.parse, sqlite's db.run) are modelled as
oracles in an environment record; each oracle returns `Except String _`, an
`Except.error` standing for a thrown/rejected value whose `.message` is the
carried string.  The control flow of the handler (the nested try/catch blocks
and the loop) is translated directly from the source.
-/

namespace GapAnalyzer

/-- Model of a JavaScript value as it matters to this program: the fields read
off the object produced by JSON.parse (`businessIdea`, `gapProbability`) can be
a string, a number, a boolean, `null`, or absent (`undefined`). -/
inductive JsVal where
  | undef
  | null
  | str (s : String)
  | num (q : ℚ)
  | bool (b : Bool)
deriving DecidableEq

/-- JavaScript truthiness for the modelled values: `undefined`, `null`, the
empty string, `0` and `false` are falsy, everything else is truthy. -/
def JsVal.truthy : JsVal → Bool
  | JsVal.undef => false
  | JsVal.null => false
  | JsVal.str s => !s.data.isEmpty
  | JsVal.num q => decide (q ≠ 0)
  | JsVal.bool b => b

/-! The JavaScript string built-ins the handler uses (`trim`, `split('\n')`,
`replace`, `startsWith`-style prefix tests) are modelled by structural
functions on the character list underlying a `String`, with the semantics of
the corresponding ECMAScript operations on the character sets this program
deals with. -/

/-- Whether `pat` is a prefix of `s` (character lists). -/
def isPrefixAt : List Char → List Char → Bool
  | [], _ => true
  | _ :: _, [] => false
  | p :: ps, c :: cs => p == c && isPrefixAt ps cs

/-- Character-list version of JS `String.prototype.trim`: strips leading and
trailing whitespace. -/
def jsTrimChars (s : List Char) : List Char :=
  ((s.dropWhile Char.isWhitespace).reverse.dropWhile Char.isWhitespace).reverse

/-- JS `String.prototype.trim`. -/
def jsTrim (s : String) : String :=
  ⟨jsTrimChars s.data⟩

/-- Character-list version of JS `split('\n')`. -/
def splitNlChars : List Char → List (List Char)
  | [] => [[]]
  | c :: cs =>
    if c == '\n' then [] :: splitNlChars cs
    else
      match splitNlChars cs with
      | [] => [[c]]
      | h :: t => (c :: h) :: t

/-- JS `String.prototype.split('\n')`. -/
def jsSplitNl (s : String) : List String :=
  (splitNlChars s.data).map (fun l => ⟨l⟩)

/-- Removes every non-overlapping occurrence of `pat` (non-empty), scanning
left to right: JS `replace(/pat/g, '')`.  The `Nat` argument is fuel, always
called with the length of the string, which bounds the recursion depth. -/
def removeAllChars (pat : List Char) : Nat → List Char → List Char
  | 0, _ => []
  | _ + 1, [] => []
  | n + 1, c :: cs =>
    if !pat.isEmpty && isPrefixAt pat (c :: cs) then
      removeAllChars pat n (List.drop (pat.length - 1) cs)
    else c :: removeAllChars pat n cs

/-- JS `s.replace(/pat/g, '')` for a non-empty literal pattern. -/
def jsRemoveAll (s pat : String) : String :=
  ⟨removeAllChars pat.data s.data.length s.data⟩

/-- Source line `const topics = redditTopics.split('\n').filter(topic => topic.trim() !== '')`. -/
def topicsOf (raw : String) : List String :=
  (jsSplitNl raw).filter (fun topic => jsTrim topic != "")

/-- Source line `const sanitizedTopic = topic.trim().replace(/^r\//i, '')`:
trim, then strip one leading case-insensitive "r/" marker ("r/" or "R/"). -/
def sanitizedTopicOf (topic : String) : String :=
  if isPrefixAt "r/".data (jsTrim topic).data || isPrefixAt "R/".data (jsTrim topic).data then
    ⟨(jsTrim topic).data.drop 2⟩
  else jsTrim topic

/-- Source line ``const redditUrl = `https://www.reddit.com/r/${sanitizedTopic}` ``. -/
def redditUrlOf (sanitizedTopic : String) : String :=
  "https://www.reddit.com/r/" ++ sanitizedTopic

/-- The URL fetched for a suggested topic string. -/
def topicUrl (topic : String) : String :=
  redditUrlOf (sanitizedTopicOf topic)

/-- Source line ``const cleanedJsonText = analysisResultText.replace(/```json/g, '').replace(/```/g, '').trim()``. -/
def cleanJsonText (analysisResultText : String) : String :=
  jsTrim (jsRemoveAll (jsRemoveAll analysisResultText "```json") "```")

/-- Idea text of the placeholder pushed by the `catch (error)` fetch handler:
`` `Error fetching the subreddit page: ${error.message}` ``. -/
def fetchErrorIdea (msg : String) : String :=
  "Error fetching the subreddit page: " ++ msg

/-- Idea text of the placeholder pushed by the `catch (cheerioError)` handler. -/
def cheerioErrorIdea : String :=
  "Error parsing the subreddit page."

/-- Idea text of the placeholder pushed by the `catch (analysisError)` handler. -/
def analysisErrorIdea : String :=
  "Could not generate or parse analysis."

/-- The object obtained from `JSON.parse` in the simple variant, as accessed by
the program: only the fields `businessIdea` and `gapProbability` are read.  A
field absent from the parsed JSON is `JsVal.undef`. -/
structure SimpleAnalysis where
  businessIdea : JsVal
  gapProbability : JsVal
deriving DecidableEq

/-- One row of the `results` table in the simple variant (src/index.js),
holding the values bound by the INSERT (id and createdAt are store-assigned
and not modelled here). -/
structure DbRow where
  subreddit : String
  idea : JsVal
  probability : JsVal
deriving DecidableEq

/-- One element of the `results` array pushed by the `/search` loop in the
simple variant: `{ link, idea, probability }`.  Both real analyses and
placeholders have this shape. -/
structure ResultEntry where
  link : String
  idea : JsVal
  probability : JsVal
deriving DecidableEq

/-- The placeholder entry pushed when the fetch stage throws. -/
def fetchPlaceholder (link msg : String) : ResultEntry :=
  ⟨link, JsVal.str (fetchErrorIdea msg), JsVal.num 0⟩

/-- The placeholder entry pushed when the cheerio/extract stage throws. -/
def cheerioPlaceholder (link : String) : ResultEntry :=
  ⟨link, JsVal.str cheerioErrorIdea, JsVal.num 0⟩

/-- The placeholder entry pushed when the analysis stage throws (model call,
JSON.parse, or the db.run inside the same try block). -/
def analysisPlaceholder (link : String) : ResultEntry :=
  ⟨link, JsVal.str analysisErrorIdea, JsVal.num 0⟩

/-- Oracles for the external collaborators of the simple variant.  `suggest`
is the first `model.generateContent` call (its raw text), `fetch` is
`axios.get` keyed by URL, `extract` is `cheerio.load` plus `$('body').text()`,
`analyze` is the second `model.generateContent` call keyed by the sanitized
topic and the thread content, `parse` is `JSON.parse` on the cleaned text, and
`runInsert` is `db.run` of the INSERT.  An `Except.error` models a throw. -/
structure Env where
  suggest : Except String String
  fetch : String → Except String String
  extract : String → Except String String
  analyze : String → String → Except String String
  parse : String → Except String SimpleAnalysis
  runInsert : DbRow → Except String Unit

/-- Body of the `for (const topic of topics)` loop in src/index.js: returns the
entry pushed onto `results` and the updated store contents.  The nesting of the
`match`es mirrors the nesting of the try/catch blocks; in particular a throw
from `db.run` is caught by the `catch (analysisError)` handler, which pushes
the analysis placeholder instead of the real entry. -/
def processTopic (env : Env) (rows : List DbRow) (topic : String) :
    ResultEntry × List DbRow :=
  match env.fetch (topicUrl topic) with
  | Except.error msg => (fetchPlaceholder (topicUrl topic) msg, rows)
  | Except.ok html =>
    match env.extract html with
    | Except.error _ => (cheerioPlaceholder (topicUrl topic), rows)
    | Except.ok threadContent =>
      match env.analyze (sanitizedTopicOf topic) threadContent with
      | Except.error _ => (analysisPlaceholder (topicUrl topic), rows)
      | Except.ok analysisResultText =>
        match env.parse (cleanJsonText analysisResultText) with
        | Except.error _ => (analysisPlaceholder (topicUrl topic), rows)
        | Except.ok j =>
          if j.businessIdea.truthy && j.gapProbability.truthy then
            match env.runInsert ⟨topicUrl topic, j.businessIdea, j.gapProbability⟩ with
            | Except.error _ => (analysisPlaceholder (topicUrl topic), rows)
            | Except.ok _ =>
              (⟨topicUrl topic, j.businessIdea, j.gapProbability⟩,
               rows ++ [⟨topicUrl topic, j.businessIdea, j.gapProbability⟩])
          else (⟨topicUrl topic, j.businessIdea, j.gapProbability⟩, rows)

/-- The entry a given topic contributes to the response (the store contents do
not influence the pushed entry, see `processTopic_fst`). -/
def topicEntry (env : Env) (topic : String) : ResultEntry :=
  (processTopic env [] topic).1

/-- The whole `for (const topic of topics)` loop: accumulates the `results`
array and threads the store contents through the iterations. -/
def searchLoop (env : Env) : List String → List DbRow → List ResultEntry × List DbRow
  | [], rows => ([], rows)
  | topic :: rest, rows =>
    let r1 := processTopic env rows topic
    let r2 := searchLoop env rest r1.2
    (r1.1 :: r2.1, r2.2)

/-- Outcome of the `/search` handler: `res.json(results)` on success, or the
500 response `{ error: "Gemini API Error", details }` when the suggestion call
throws. -/
inductive SearchResponse where
  | ok (entries : List ResultEntry)
  | serverError (err : String) (details : Option String)
deriving DecidableEq

/-- The `GET /search` handler of the simple variant: one suggestion call, then
the sequential per-topic loop.  Returns the HTTP response together with the
final store contents. -/
def searchHandler (env : Env) (rows : List DbRow) : SearchResponse × List DbRow :=
  match env.suggest with
  | Except.error msg => (SearchResponse.serverError "Gemini API Error" (some msg), rows)
  | Except.ok redditTopics =>
    let r := searchLoop env (topicsOf redditTopics) rows
    (SearchResponse.ok r.1, r.2)

theorem processTopic_fetch_error (env : Env) (rows : List DbRow) (topic msg : String)
    (hf : env.fetch (topicUrl topic) = Except.error msg) :
    processTopic env rows topic = (fetchPlaceholder (topicUrl topic) msg, rows) := by
  simp only [processTopic, hf]

theorem processTopic_extract_error (env : Env) (rows : List DbRow) (topic html e : String)
    (hf : env.fetch (topicUrl topic) = Except.ok html)
    (hx : env.extract html = Except.error e) :
    processTopic env rows topic = (cheerioPlaceholder (topicUrl topic), rows) := by
  simp only [processTopic, hf, hx]

theorem processTopic_analyze_error (env : Env) (rows : List DbRow)
    (topic html threadContent e : String)
    (hf : env.fetch (topicUrl topic) = Except.ok html)
    (hx : env.extract html = Except.ok threadContent)
    (ha : env.analyze (sanitizedTopicOf topic) threadContent = Except.error e) :
    processTopic env rows topic = (analysisPlaceholder (topicUrl topic), rows) := by
  simp only [processTopic, hf, hx, ha]

theorem processTopic_jsonParse_error (env : Env) (rows : List DbRow)
    (topic html threadContent analysisResultText e : String)
    (hf : env.fetch (topicUrl topic) = Except.ok html)
    (hx : env.extract html = Except.ok threadContent)
    (ha : env.analyze (sanitizedTopicOf topic) threadContent = Except.ok analysisResultText)
    (hp : env.parse (cleanJsonText analysisResultText) = Except.error e) :
    processTopic env rows topic = (analysisPlaceholder (topicUrl topic), rows) := by
  simp only [processTopic, hf, hx, ha, hp]

theorem processTopic_jsonParse_ok (env : Env) (rows : List DbRow)
    (topic html threadContent analysisResultText : String) (j : SimpleAnalysis)
    (hf : env.fetch (topicUrl topic) = Except.ok html)
    (hx : env.extract html = Except.ok threadContent)
    (ha : env.analyze (sanitizedTopicOf topic) threadContent = Except.ok analysisResultText)
    (hp : env.parse (cleanJsonText analysisResultText) = Except.ok j) :
    processTopic env rows topic =
      if j.businessIdea.truthy && j.gapProbability.truthy then
        match env.runInsert ⟨topicUrl topic, j.businessIdea, j.gapProbability⟩ with
        | Except.error _ => (analysisPlaceholder (topicUrl topic), rows)
        | Except.ok _ =>
          (⟨topicUrl topic, j.businessIdea, j.gapProbability⟩,
           rows ++ [⟨topicUrl topic, j.businessIdea, j.gapProbability⟩])
      else (⟨topicUrl topic, j.businessIdea, j.gapProbability⟩, rows) := by
  simp only [processTopic, hf, hx, ha, hp]

theorem processTopic_fst (env : Env) (rows : List DbRow) (topic : String) :
    (processTopic env rows topic).1 = topicEntry env topic := by
  unfold topicEntry
  cases hf : env.fetch (topicUrl topic) with
  | error msg =>
    rw [processTopic_fetch_error env rows topic msg hf,
      processTopic_fetch_error env [] topic msg hf]
  | ok html =>
    cases hx : env.extract html with
    | error e =>
      rw [processTopic_extract_error env rows topic html e hf hx,
        processTopic_extract_error env [] topic html e hf hx]
    | ok threadContent =>
      cases ha : env.analyze (sanitizedTopicOf topic) threadContent with
      | error e =>
        rw [processTopic_analyze_error env rows topic html threadContent e hf hx ha,
          processTopic_analyze_error env [] topic html threadContent e hf hx ha]
      | ok analysisResultText =>
        cases hp : env.parse (cleanJsonText analysisResultText) with
        | error e =>
          rw [processTopic_jsonParse_error env rows topic html threadContent
              analysisResultText e hf hx ha hp,
            processTopic_jsonParse_error env [] topic html threadContent
              analysisResultText e hf hx ha hp]
        | ok j =>
          rw [processTopic_jsonParse_ok env rows topic html threadContent
              analysisResultText j hf hx ha hp,
            processTopic_jsonParse_ok env [] topic html threadContent
              analysisResultText j hf hx ha hp]
          by_cases hb : (j.businessIdea.truthy && j.gapProbability.truthy) = true
          · simp only [hb, if_true]
            cases env.runInsert ⟨topicUrl topic, j.businessIdea, j.gapProbability⟩ <;> rfl
          · simp only [if_neg hb]

theorem searchLoop_fst (env : Env) (ts : List String) (rows : List DbRow) :
    (searchLoop env ts rows).1 = ts.map (topicEntry env) := by
  induction ts generalizing rows with
  | nil => rfl
  | cons t rest ih =>
    simp only [searchLoop, List.map_cons, ih, processTopic_fst]

theorem searchLoop_length (env : Env) (ts : List String) (rows : List DbRow) :
    (searchLoop env ts rows).1.length = ts.length := by
  rw [searchLoop_fst, List.length_map]

theorem processTopic_snd_mem (env : Env) (rows : List DbRow) (topic : String)
    (r : DbRow) (hr : r ∈ (processTopic env rows topic).2) :
    r ∈ rows ∨ (r.idea.truthy = true ∧ r.probability.truthy = true) := by
  cases hf : env.fetch (topicUrl topic) with
  | error msg =>
    rw [processTopic_fetch_error env rows topic msg hf] at hr
    exact Or.inl hr
  | ok html =>
    cases hx : env.extract html with
    | error e =>
      rw [processTopic_extract_error env rows topic html e hf hx] at hr
      exact Or.inl hr
    | ok threadContent =>
      cases ha : env.analyze (sanitizedTopicOf topic) threadContent with
      | error e =>
        rw [processTopic_analyze_error env rows topic html threadContent e hf hx ha] at hr
        exact Or.inl hr
      | ok analysisResultText =>
        cases hp : env.parse (cleanJsonText analysisResultText) with
        | error e =>
          rw [processTopic_jsonParse_error env rows topic html threadContent
            analysisResultText e hf hx ha hp] at hr
          exact Or.inl hr
        | ok j =>
          rw [processTopic_jsonParse_ok env rows topic html threadContent
            analysisResultText j hf hx ha hp] at hr
          by_cases hb : (j.businessIdea.truthy && j.gapProbability.truthy) = true
          · rw [if_pos hb] at hr
            rcases Bool.and_eq_true_iff.mp hb with ⟨h1, h2⟩
            cases hi : env.runInsert ⟨topicUrl topic, j.businessIdea, j.gapProbability⟩ with
            | error e => rw [hi] at hr; exact Or.inl hr
            | ok u =>
              rw [hi] at hr
              rcases List.mem_append.mp hr with h | h
              · exact Or.inl h
              · rcases List.mem_singleton.mp h with rfl
                exact Or.inr ⟨h1, h2⟩
          · rw [if_neg hb] at hr
            exact Or.inl hr

theorem searchLoop_snd_mem (env : Env) (ts : List String) (rows : List DbRow)
    (r : DbRow) (hr : r ∈ (searchLoop env ts rows).2) :
    r ∈ rows ∨ (r.idea.truthy = true ∧ r.probability.truthy = true) := by
  induction ts generalizing rows with
  | nil => exact Or.inl hr
  | cons t rest ih =>
    rcases ih (processTopic env rows t).2 hr with h | h
    · exact processTopic_snd_mem env rows t r h
    · exact Or.inr h

theorem searchHandler_suggest_error (env : Env) (rows : List DbRow) (msg : String)
    (hs : env.suggest = Except.error msg) :
    searchHandler env rows =
      (SearchResponse.serverError "Gemini API Error" (some msg), rows) := by
  simp only [searchHandler, hs]

theorem searchHandler_suggest_ok (env : Env) (rows : List DbRow) (raw : String)
    (hs : env.suggest = Except.ok raw) :
    (searchHandler env rows).1 =
      SearchResponse.ok ((topicsOf raw).map (topicEntry env)) := by
  simp only [searchHandler, hs, searchLoop_fst]

/-! ## Extended variant (src/unnamed/part_001)

The extended variant replaces the single `gapProbability` by four sub-scores
and a derived `overallScore`.  Score fields are modelled as rationals (the
numeric values of the JavaScript numbers involved); `Number.prototype.toFixed(1)`
is modelled by its value, the nearest multiple of 1/10 with ties rounded up,
which agrees with ECMAScript toFixed on every value exactly representable as a
double (in particular on every quarter-integer arising from four integer
sub-scores). -/

/-- Value of `x.toFixed(1)` as a rational: round to the nearest tenth. -/
def toFixed1 (q : ℚ) : ℚ :=
  ((round (q * 10) : ℤ) : ℚ) / 10

/-- Source line `const overallScore = ((painPoint + audienceScale + monetizationPotential + feasibility) / 4).toFixed(1)`. -/
def overallScoreOf (painPoint audienceScale monetizationPotential feasibility : ℚ) : ℚ :=
  toFixed1 ((painPoint + audienceScale + monetizationPotential + feasibility) / 4)

/-- The object obtained from `JSON.parse` in the extended variant, as
destructured by the program.  The four score fields are modelled as numbers
(the shape the analysis prompt requests). -/
structure ExtAnalysis where
  businessIdea : JsVal
  painPoint : ℚ
  audienceScale : ℚ
  monetizationPotential : ℚ
  feasibility : ℚ
deriving DecidableEq

/-- One row of the `results` table in the extended variant, holding the seven
values bound by the INSERT. -/
structure ExtDbRow where
  subreddit : String
  idea : JsVal
  pain_point : ℚ
  audience_scale : ℚ
  monetization_potential : ℚ
  feasibility : ℚ
  overall_score : ℚ
deriving DecidableEq

/-- One element of the `results` array in the extended variant: a successful
analysis pushes `{ link, idea, pain, audience, monetization, feasibility,
overall }`, while every catch handler pushes `{ link, idea, overall: 0 }`. -/
inductive ExtEntry where
  | real (link : String) (idea : JsVal)
      (pain audience monetization feasibility overall : ℚ)
  | degraded (link : String) (idea : String)
deriving DecidableEq

/-- Oracles for the external collaborators of the extended variant. -/
structure ExtEnv where
  suggest : Except String String
  fetch : String → Except String String
  extract : String → Except String String
  analyze : String → String → Except String String
  parse : String → Except String ExtAnalysis
  runInsert : ExtDbRow → Except String Unit

/-- Body of the per-topic loop in src/unnamed/part_001.  As in the simple
variant, the `db.run` sits inside the `try { ... } catch (analysisError)`
block, so an insert failure degrades to the analysis placeholder entry. -/
def processTopicExt (env : ExtEnv) (rows : List ExtDbRow) (topic : String) :
    ExtEntry × List ExtDbRow :=
  match env.fetch (topicUrl topic) with
  | Except.error msg => (ExtEntry.degraded (topicUrl topic) (fetchErrorIdea msg), rows)
  | Except.ok html =>
    match env.extract html with
    | Except.error _ => (ExtEntry.degraded (topicUrl topic) cheerioErrorIdea, rows)
    | Except.ok threadContent =>
      match env.analyze (sanitizedTopicOf topic) threadContent with
      | Except.error _ => (ExtEntry.degraded (topicUrl topic) analysisErrorIdea, rows)
      | Except.ok analysisResultText =>
        match env.parse (cleanJsonText analysisResultText) with
        | Except.error _ => (ExtEntry.degraded (topicUrl topic) analysisErrorIdea, rows)
        | Except.ok j =>
          if j.businessIdea.truthy then
            match env.runInsert ⟨topicUrl topic, j.businessIdea, j.painPoint,
                j.audienceScale, j.monetizationPotential, j.feasibility,
                overallScoreOf j.painPoint j.audienceScale j.monetizationPotential
                  j.feasibility⟩ with
            | Except.error _ => (ExtEntry.degraded (topicUrl topic) analysisErrorIdea, rows)
            | Except.ok _ =>
              (ExtEntry.real (topicUrl topic) j.businessIdea j.painPoint j.audienceScale
                 j.monetizationPotential j.feasibility
                 (overallScoreOf j.painPoint j.audienceScale j.monetizationPotential
                   j.feasibility),
               rows ++ [⟨topicUrl topic, j.businessIdea, j.painPoint, j.audienceScale,
                 j.monetizationPotential, j.feasibility,
                 overallScoreOf j.painPoint j.audienceScale j.monetizationPotential
                   j.feasibility⟩])
          else
            (ExtEntry.real (topicUrl topic) j.businessIdea j.painPoint j.audienceScale
               j.monetizationPotential j.feasibility
               (overallScoreOf j.painPoint j.audienceScale j.monetizationPotential
                 j.feasibility),
             rows)

theorem processTopicExt_jsonParse_ok (env : ExtEnv) (rows : List ExtDbRow)
    (topic html threadContent analysisResultText : String) (j : ExtAnalysis)
    (hf : env.fetch (topicUrl topic) = Except.ok html)
    (hx : env.extract html = Except.ok threadContent)
    (ha : env.analyze (sanitizedTopicOf topic) threadContent = Except.ok analysisResultText)
    (hp : env.parse (cleanJsonText analysisResultText) = Except.ok j) :
    processTopicExt env rows topic =
      if j.businessIdea.truthy then
        match env.runInsert ⟨topicUrl topic, j.businessIdea, j.painPoint,
            j.audienceScale, j.monetizationPotential, j.feasibility,
            overallScoreOf j.painPoint j.audienceScale j.monetizationPotential
              j.feasibility⟩ with
        | Except.error _ => (ExtEntry.degraded (topicUrl topic) analysisErrorIdea, rows)
        | Except.ok _ =>
          (ExtEntry.real (topicUrl topic) j.businessIdea j.painPoint j.audienceScale
             j.monetizationPotential j.feasibility
             (overallScoreOf j.painPoint j.audienceScale j.monetizationPotential
               j.feasibility),
           rows ++ [⟨topicUrl topic, j.businessIdea, j.painPoint, j.audienceScale,
             j.monetizationPotential, j.feasibility,
             overallScoreOf j.painPoint j.audienceScale j.monetizationPotential
               j.feasibility⟩])
      else
        (ExtEntry.real (topicUrl topic) j.businessIdea j.painPoint j.audienceScale
           j.monetizationPotential j.feasibility
           (overallScoreOf j.painPoint j.audienceScale j.monetizationPotential
             j.feasibility),
         rows) := by
  simp only [processTopicExt, hf, hx, ha, hp]

/-! ## Concrete environments used to exercise the handler -/

/-- A fixed well-formed analysis object, as JSON.parse would produce it from
`\x7b"businessIdea": "A subscription service", "gapProbability": 42\x7d`. -/
def goodAnalysis : SimpleAnalysis :=
  ⟨JsVal.str "A subscription service", JsVal.num 42⟩

/-- An environment in which every collaborator succeeds; the suggester returns
two non-blank lines (one of them carrying the "r/" marker) and one blank. -/
def envA : Env where
  suggest := Except.ok "r/alpha\nbeta\n"
  fetch := fun _ => Except.ok "<html><body>hi</body></html>"
  extract := fun _ => Except.ok "hi"
  analyze := fun _ _ => Except.ok "RAW"
  parse := fun _ => Except.ok goodAnalysis
  runInsert := fun _ => Except.ok ()

/-- The raw analysis text of `envJson`: a valid JSON object wrapped in
code-fence markers. -/
def fencedRaw : String :=
  "```json\n\x7b\"businessIdea\": \"A subscription service\", \"gapProbability\": 42\x7d\n```"

/-- The bare JSON object inside `fencedRaw`. -/
def bareJson : String :=
  "\x7b\"businessIdea\": \"A subscription service\", \"gapProbability\": 42\x7d"

/-- An environment whose analysis model call answers with fenced JSON and whose
JSON.parse oracle accepts exactly the bare (unfenced) object text. -/
def envJson : Env where
  suggest := Except.ok "alpha"
  fetch := fun _ => Except.ok "<html>"
  extract := fun _ => Except.ok "text"
  analyze := fun _ _ => Except.ok fencedRaw
  parse := fun s => if s = bareJson then Except.ok goodAnalysis
    else Except.error "Unexpected token in JSON"
  runInsert := fun _ => Except.ok ()

/-- An environment in which fetching the second of three suggested topics
fails and everything else succeeds. -/
def envFetchMid : Env where
  suggest := Except.ok "alpha\nbeta\ngamma"
  fetch := fun url => if url = "https://www.reddit.com/r/beta" then
      Except.error "Request failed with status code 403"
    else Except.ok "<html>"
  extract := fun _ => Except.ok "text"
  analyze := fun _ _ => Except.ok "RAW"
  parse := fun _ => Except.ok goodAnalysis
  runInsert := fun _ => Except.ok ()

/-- An environment in which the store insert rejects for the second of three
suggested topics and everything else succeeds. -/
def envInsertFail : Env where
  suggest := Except.ok "alpha\nbeta\ngamma"
  fetch := fun _ => Except.ok "<html>"
  extract := fun _ => Except.ok "text"
  analyze := fun _ _ => Except.ok "RAW"
  parse := fun _ => Except.ok goodAnalysis
  runInsert := fun r => if r.subreddit = "https://www.reddit.com/r/beta" then
      Except.error "SQLITE_CONSTRAINT"
    else Except.ok ()

/-- An environment in which the initial topic-suggestion model call throws. -/
def envSuggestFail : Env where
  suggest := Except.error "API key not valid"
  fetch := fun _ => Except.ok "<html>"
  extract := fun _ => Except.ok "text"
  analyze := fun _ _ => Except.ok "RAW"
  parse := fun _ => Except.ok goodAnalysis
  runInsert := fun _ => Except.ok ()

/-- An environment whose analysis JSON parses but carries falsy fields: the
`businessIdea` and `gapProbability` properties are absent (`undefined`). -/
def envFalsy : Env where
  suggest := Except.ok "alpha"
  fetch := fun _ => Except.ok "<html>"
  extract := fun _ => Except.ok "text"
  analyze := fun _ _ => Except.ok "RAW"
  parse := fun _ => Except.ok ⟨JsVal.undef, JsVal.undef⟩
  runInsert := fun _ => Except.ok ()

/-! ## Claims -/

/-- Claim C1: absent a fatal top-level error, the `/search` handler returns a
list with exactly one entry per non-blank line of the suggester raw response,
in the order of the topics: the response is exactly the map of the per-topic
pipeline over the suggested topic list, whose length is the number of
non-blank lines. -/
theorem search_one_entry_per_nonblank_line (env : Env) (rows : List DbRow) (raw : String)
    (hs : env.suggest = Except.ok raw) :
    (searchHandler env rows).1 = SearchResponse.ok ((topicsOf raw).map (topicEntry env)) ∧
    ((topicsOf raw).map (topicEntry env)).length
      = ((jsSplitNl raw).filter (fun line => jsTrim line != "")).length := by
  refine ⟨searchHandler_suggest_ok env rows raw hs, ?_⟩
  rw [List.length_map]
  rfl

/-- Witness for C1: a suggester response of two non-blank lines and one blank
line yields exactly the two corresponding entries. -/
theorem search_one_entry_per_nonblank_line_witness :
    (searchHandler envA []).1 =
      SearchResponse.ok
        [⟨"https://www.reddit.com/r/alpha", JsVal.str "A subscription service", JsVal.num 42⟩,
         ⟨"https://www.reddit.com/r/beta", JsVal.str "A subscription service", JsVal.num 42⟩] ∧
    (topicsOf "r/alpha\nbeta\n").length = 2 := by
  have h := search_one_entry_per_nonblank_line envA [] "r/alpha\nbeta\n" rfl
  refine ⟨?_, by decide⟩
  rw [h.1]
  decide

/-- Claim C2: a failure in the fetch, extraction, or analysis stage of one
topic produces that topic placeholder entry without touching the store, and
the entry of every topic is its own pipeline result, so the entries of the
other topics are unaffected and the request is never aborted. -/
theorem per_topic_failure_isolated :
    (∀ (env : Env) (rows : List DbRow) (topic msg : String),
        env.fetch (topicUrl topic) = Except.error msg →
        processTopic env rows topic = (fetchPlaceholder (topicUrl topic) msg, rows)) ∧
    (∀ (env : Env) (rows : List DbRow) (topic html e : String),
        env.fetch (topicUrl topic) = Except.ok html →
        env.extract html = Except.error e →
        processTopic env rows topic = (cheerioPlaceholder (topicUrl topic), rows)) ∧
    (∀ (env : Env) (rows : List DbRow) (topic html threadContent e : String),
        env.fetch (topicUrl topic) = Except.ok html →
        env.extract html = Except.ok threadContent →
        env.analyze (sanitizedTopicOf topic) threadContent = Except.error e →
        processTopic env rows topic = (analysisPlaceholder (topicUrl topic), rows)) ∧
    (∀ (env : Env) (ts : List String) (rows : List DbRow),
        (searchLoop env ts rows).1 = ts.map (topicEntry env)) :=
  ⟨processTopic_fetch_error, processTopic_extract_error,
   processTopic_analyze_error, searchLoop_fst⟩

/-- Witness for C2: injecting a fetch failure for the second of three topics
yields a 3-element response whose middle element is the fetch placeholder and
whose other two elements are the successful analyses. -/
theorem per_topic_failure_isolated_witness :
    processTopic envFetchMid [] "beta" =
      (fetchPlaceholder "https://www.reddit.com/r/beta"
        "Request failed with status code 403", []) ∧
    (searchLoop envFetchMid ["alpha", "beta", "gamma"] []).1 =
      [⟨"https://www.reddit.com/r/alpha", JsVal.str "A subscription service", JsVal.num 42⟩,
       fetchPlaceholder "https://www.reddit.com/r/beta" "Request failed with status code 403",
       ⟨"https://www.reddit.com/r/gamma", JsVal.str "A subscription service", JsVal.num 42⟩] := by
  constructor
  · exact per_topic_failure_isolated.1 envFetchMid [] "beta"
      "Request failed with status code 403" rfl
  · rw [per_topic_failure_isolated.2.2.2 envFetchMid ["alpha", "beta", "gamma"] []]
    decide

/-- Claim C8: a failing topic-suggestion model call makes the whole `/search`
request fail with the 500 response and leaves the store untouched, and this is
the only fatal failure: whenever the suggestion call succeeds the handler
answers with the entry list, whatever the other collaborators do. -/
theorem suggester_failure_fatal (env : Env) (rows : List DbRow) :
    (∀ msg, env.suggest = Except.error msg →
        searchHandler env rows =
          (SearchResponse.serverError "Gemini API Error" (some msg), rows)) ∧
    (∀ raw, env.suggest = Except.ok raw →
        (searchHandler env rows).1 =
          SearchResponse.ok ((topicsOf raw).map (topicEntry env))) :=
  ⟨fun msg h => searchHandler_suggest_error env rows msg h,
   fun raw h => searchHandler_suggest_ok env rows raw h⟩

/-- Witness for C8: a throwing suggestion call produces the 500 response and
no partial results. -/
theorem suggester_failure_fatal_witness :
    searchHandler envSuggestFail [] =
      (SearchResponse.serverError "Gemini API Error" (some "API key not valid"), []) :=
  (suggester_failure_fatal envSuggestFail []).1 "API key not valid" rfl

/-- Claim C9: the analysis model response is cleaned (code-fence markers
stripped, then trimmed) before `JSON.parse`; if the cleaned text parses, the
parsed values are pushed, and if it does not parse, the topic degrades to the
analysis placeholder while the request still answers 200 with an entry
list. -/
theorem analysis_fence_strip_and_parse (env : Env) (rows : List DbRow)
    (topic html threadContent analysisResultText : String)
    (hf : env.fetch (topicUrl topic) = Except.ok html)
    (hx : env.extract html = Except.ok threadContent)
    (ha : env.analyze (sanitizedTopicOf topic) threadContent = Except.ok analysisResultText)
    (hins : ∀ r, env.runInsert r = Except.ok ()) :
    (∀ j, env.parse (cleanJsonText analysisResultText) = Except.ok j →
        (processTopic env rows topic).1 =
          ⟨topicUrl topic, j.businessIdea, j.gapProbability⟩) ∧
    (∀ e, env.parse (cleanJsonText analysisResultText) = Except.error e →
        processTopic env rows topic = (analysisPlaceholder (topicUrl topic), rows)) ∧
    (∀ raw, env.suggest = Except.ok raw →
        ∃ entries, (searchHandler env rows).1 = SearchResponse.ok entries) := by
  refine ⟨?_, ?_, ?_⟩
  · intro j hp
    rw [processTopic_jsonParse_ok env rows topic html threadContent analysisResultText j
      hf hx ha hp]
    by_cases hb : (j.businessIdea.truthy && j.gapProbability.truthy) = true
    · rw [if_pos hb, hins ⟨topicUrl topic, j.businessIdea, j.gapProbability⟩]
    · rw [if_neg hb]
  · intro e hp
    exact processTopic_jsonParse_error env rows topic html threadContent
      analysisResultText e hf hx ha hp
  · intro raw hs
    exact ⟨_, searchHandler_suggest_ok env rows raw hs⟩

/-- Witness for C9: a valid JSON object wrapped in code-fence markers is
tolerated: cleaning strips the fences and the parsed values are pushed, under
a JSON.parse oracle that accepts exactly the bare object text. -/
theorem analysis_fence_strip_and_parse_witness :
    cleanJsonText fencedRaw = bareJson ∧
    (processTopic envJson [] "alpha").1 =
      ⟨"https://www.reddit.com/r/alpha", JsVal.str "A subscription service", JsVal.num 42⟩ := by
  refine ⟨by decide, ?_⟩
  have h := analysis_fence_strip_and_parse envJson [] "alpha" "<html>" "text" fencedRaw
    rfl rfl rfl (fun r => rfl)
  rw [h.1 goodAnalysis rfl]
  decide

/-- Claim C10: in the simple variant, a valid parse whose `businessIdea` or
`gapProbability` is falsy still pushes the raw (possibly undefined) values as
the topic entry — not the placeholder — while persisting nothing. -/
theorem falsy_fields_pushed_unpersisted (env : Env) (rows : List DbRow)
    (topic html threadContent analysisResultText : String) (j : SimpleAnalysis)
    (hf : env.fetch (topicUrl topic) = Except.ok html)
    (hx : env.extract html = Except.ok threadContent)
    (ha : env.analyze (sanitizedTopicOf topic) threadContent = Except.ok analysisResultText)
    (hp : env.parse (cleanJsonText analysisResultText) = Except.ok j)
    (hfalsy : (j.businessIdea.truthy && j.gapProbability.truthy) = false) :
    processTopic env rows topic =
      (⟨topicUrl topic, j.businessIdea, j.gapProbability⟩, rows) := by
  rw [processTopic_jsonParse_ok env rows topic html threadContent analysisResultText j
    hf hx ha hp]
  rw [if_neg (by simp [hfalsy])]

/-- Witness for C10: an analysis object with both fields absent is pushed with
undefined idea and probability, and the store is left unchanged. -/
theorem falsy_fields_pushed_unpersisted_witness :
    processTopic envFalsy [] "alpha" =
      (⟨"https://www.reddit.com/r/alpha", JsVal.undef, JsVal.undef⟩, []) := by
  have h := falsy_fields_pushed_unpersisted envFalsy [] "alpha" "<html>" "text" "RAW"
    ⟨JsVal.undef, JsVal.undef⟩ rfl rfl rfl rfl (by decide)
  rw [h]
  decide

/-- Claim C3: a row is inserted if and only if the parsed idea is truthy (and,
in the simple variant, the probability too); every row ever persisted by the
simple-variant loop has truthy idea and truthy probability (so no 0-score
placeholder data is ever persisted); and in the extended variant the insert is
guarded by the idea alone, for every value of the four sub-scores. -/
theorem record_persisted_iff_truthy :
    (∀ (env : Env) (rows : List DbRow)
        (topic html threadContent analysisResultText : String) (j : SimpleAnalysis),
        env.fetch (topicUrl topic) = Except.ok html →
        env.extract html = Except.ok threadContent →
        env.analyze (sanitizedTopicOf topic) threadContent = Except.ok analysisResultText →
        env.parse (cleanJsonText analysisResultText) = Except.ok j →
        (∀ r, env.runInsert r = Except.ok ()) →
        ((processTopic env rows topic).2
            = rows ++ [⟨topicUrl topic, j.businessIdea, j.gapProbability⟩]
          ↔ (j.businessIdea.truthy = true ∧ j.gapProbability.truthy = true))) ∧
    (∀ (env : Env) (ts : List String) (r : DbRow),
        r ∈ (searchLoop env ts []).2 →
        r.idea.truthy = true ∧ r.probability.truthy = true) ∧
    (∀ (env : ExtEnv) (rows : List ExtDbRow)
        (topic html threadContent analysisResultText : String) (j : ExtAnalysis),
        env.fetch (topicUrl topic) = Except.ok html →
        env.extract html = Except.ok threadContent →
        env.analyze (sanitizedTopicOf topic) threadContent = Except.ok analysisResultText →
        env.parse (cleanJsonText analysisResultText) = Except.ok j →
        (∀ r, env.runInsert r = Except.ok ()) →
        ((processTopicExt env rows topic).2
            = rows ++ [⟨topicUrl topic, j.businessIdea, j.painPoint, j.audienceScale,
                j.monetizationPotential, j.feasibility,
                overallScoreOf j.painPoint j.audienceScale j.monetizationPotential
                  j.feasibility⟩]
          ↔ j.businessIdea.truthy = true)) := by
  refine ⟨?_, ?_, ?_⟩
  · intro env rows topic html threadContent analysisResultText j hf hx ha hp hins
    rw [processTopic_jsonParse_ok env rows topic html threadContent analysisResultText j
      hf hx ha hp]
    by_cases hb : (j.businessIdea.truthy && j.gapProbability.truthy) = true
    · rw [if_pos hb, hins ⟨topicUrl topic, j.businessIdea, j.gapProbability⟩]
      simpa using Bool.and_eq_true_iff.mp hb
    · rw [if_neg hb]
      rw [Bool.and_eq_true] at hb
      constructor
      · intro hEq
        have := congrArg List.length hEq
        simp at this
      · intro hT
        exact absurd hT hb
  · intro env ts r hr
    rcases searchLoop_snd_mem env ts [] r hr with h | h
    · exact absurd h (List.not_mem_nil r)
    · exact h
  · intro env rows topic html threadContent analysisResultText j hf hx ha hp hins
    rw [processTopicExt_jsonParse_ok env rows topic html threadContent analysisResultText j
      hf hx ha hp]
    by_cases hb : j.businessIdea.truthy = true
    · rw [if_pos hb,
        hins ⟨topicUrl topic, j.businessIdea, j.painPoint, j.audienceScale,
          j.monetizationPotential, j.feasibility,
          overallScoreOf j.painPoint j.audienceScale j.monetizationPotential j.feasibility⟩]
      simpa using hb
    · rw [if_neg hb]
      constructor
      · intro hEq
        have := congrArg List.length hEq
        simp at this
      · intro hT
        exact absurd hT hb

/-- Witness for C3: a truthy idea and probability cause exactly that row to be
appended to the store. -/
theorem record_persisted_iff_truthy_witness :
    (processTopic envA [] "beta").2 =
      [⟨"https://www.reddit.com/r/beta", JsVal.str "A subscription service", JsVal.num 42⟩] := by
  have h := (record_persisted_iff_truthy.1 envA [] "beta" "<html><body>hi</body></html>"
    "hi" "RAW" goodAnalysis rfl rfl rfl rfl (fun r => rfl)).mpr ⟨by decide, by decide⟩
  rw [h]
  decide

/-- Counterexample for C4: a storage error raised by the insert does not
propagate out of the loop.  With three topics and the insert rejecting for the
middle one, the handler still answers with a 3-element list (the middle entry
degraded to the analysis placeholder, the later topic fully processed and
persisted), instead of aborting the remaining topics. -/
theorem insert_error_caught_not_aborting :
    searchHandler envInsertFail [] =
      (SearchResponse.ok
        [⟨"https://www.reddit.com/r/alpha", JsVal.str "A subscription service", JsVal.num 42⟩,
         analysisPlaceholder "https://www.reddit.com/r/beta",
         ⟨"https://www.reddit.com/r/gamma", JsVal.str "A subscription service", JsVal.num 42⟩],
       [⟨"https://www.reddit.com/r/alpha", JsVal.str "A subscription service", JsVal.num 42⟩,
        ⟨"https://www.reddit.com/r/gamma", JsVal.str "A subscription service", JsVal.num 42⟩]) := by
  decide

/-- Claim C4 as amended: a storage error raised by the insert is caught by the
enclosing `catch (analysisError)` block: the failing topic degrades to the
analysis placeholder (and its row is not stored), while the loop always emits
one entry per topic, so the remaining topics are not aborted. -/
theorem insert_error_isolated_to_topic (env : Env) (rows : List DbRow)
    (topic html threadContent analysisResultText e : String) (j : SimpleAnalysis)
    (hf : env.fetch (topicUrl topic) = Except.ok html)
    (hx : env.extract html = Except.ok threadContent)
    (ha : env.analyze (sanitizedTopicOf topic) threadContent = Except.ok analysisResultText)
    (hp : env.parse (cleanJsonText analysisResultText) = Except.ok j)
    (hb : (j.businessIdea.truthy && j.gapProbability.truthy) = true)
    (hi : env.runInsert ⟨topicUrl topic, j.businessIdea, j.gapProbability⟩
        = Except.error e) :
    processTopic env rows topic = (analysisPlaceholder (topicUrl topic), rows) ∧
    ∀ (ts : List String) (rows0 : List DbRow),
      (searchLoop env ts rows0).1.length = ts.length := by
  constructor
  · rw [processTopic_jsonParse_ok env rows topic html threadContent analysisResultText j
      hf hx ha hp]
    rw [if_pos hb, hi]
  · intro ts rows0
    exact searchLoop_length env ts rows0

/-- Witness for the amended C4: the concrete insert rejection degrades the
middle topic to the placeholder and the loop still yields three entries. -/
theorem insert_error_isolated_to_topic_witness :
    processTopic envInsertFail [] "beta" =
      (analysisPlaceholder "https://www.reddit.com/r/beta", []) ∧
    (searchLoop envInsertFail ["alpha", "beta", "gamma"] []).1.length = 3 := by
  have h := insert_error_isolated_to_topic envInsertFail [] "beta" "<html>" "text" "RAW"
    "SQLITE_CONSTRAINT" goodAnalysis rfl rfl rfl rfl (by decide) rfl
  exact ⟨h.1, h.2 ["alpha", "beta", "gamma"] []⟩

/-- Claim C6: in the extended variant the overall score is, for all four valid
sub-score inputs, the arithmetic mean rounded to one decimal place: it is a
multiple of one tenth lying within one twentieth of the exact mean, and the
example inputs (80, 60, 40, 90) yield 67.5. -/
theorem overallScore_is_mean_rounded_to_tenth :
    (∀ p a m f : ℤ, 0 ≤ p → p ≤ 100 → 0 ≤ a → a ≤ 100 → 0 ≤ m → m ≤ 100 →
        0 ≤ f → f ≤ 100 →
        |overallScoreOf p a m f - (((p : ℚ) + a + m + f) / 4)| ≤ 1 / 20 ∧
        ∃ k : ℤ, overallScoreOf p a m f = (k : ℚ) / 10) ∧
    overallScoreOf 80 60 40 90 = 67.5 := by
  constructor
  · intro p a m f _ _ _ _ _ _ _ _
    constructor
    · unfold overallScoreOf toFixed1
      have h := abs_sub_round ((((p : ℚ) + a + m + f) / 4) * 10)
      have h10 : |(10 : ℚ)| = 10 := abs_of_pos (by norm_num)
      have heq :
          ((round ((((p : ℚ) + a + m + f) / 4) * 10) : ℤ) : ℚ) / 10
              - (((p : ℚ) + a + m + f) / 4)
            = -(((((p : ℚ) + a + m + f) / 4) * 10
                - ((round ((((p : ℚ) + a + m + f) / 4) * 10) : ℤ) : ℚ)) / 10) := by
        ring
      rw [heq, abs_neg, abs_div, h10]
      linarith [h]
    · exact ⟨round ((((p : ℚ) + a + m + f) / 4) * 10), rfl⟩
  · norm_num [overallScoreOf, toFixed1, round_eq]

/-- Witness for C6: the bound instantiated at the example inputs. -/
theorem overallScore_is_mean_rounded_to_tenth_witness :
    |overallScoreOf 80 60 40 90 - ((80 + 60 + 40 + 90 : ℚ) / 4)| ≤ 1 / 20 := by
  have h := (overallScore_is_mean_rounded_to_tenth.1 80 60 40 90
    (by norm_num) (by norm_num) (by norm_num) (by norm_num)
    (by norm_num) (by norm_num) (by norm_num) (by norm_num)).1
  push_cast at h
  exact h

/-- Counterexample for C7: the marker stripping is case-insensitive, so a topic
that does not carry the lowercase "r/" marker is not necessarily used
verbatim: "R/test" is normalized to "test". -/
theorem sanitize_uppercase_marker_not_verbatim :
    jsTrim "R/test" = "R/test" ∧
    isPrefixAt "r/".data (jsTrim "R/test").data = false ∧
    sanitizedTopicOf "R/test" ≠ "R/test" ∧
    sanitizedTopicOf "R/test" = "test" := by
  decide

/-- Claim C7 as amended: after trimming, normalization strips exactly one
leading case-insensitive "r/" marker ("r/" or "R/"); a trimmed topic starting
with neither is used verbatim; and the fetch URL is the fixed base
concatenated with "/r/" and the normalized topic. -/
theorem sanitize_strips_one_marker (topic : String) :
    (isPrefixAt "r/".data (jsTrim topic).data = true →
        sanitizedTopicOf topic = ⟨(jsTrim topic).data.drop 2⟩) ∧
    (isPrefixAt "R/".data (jsTrim topic).data = true →
        sanitizedTopicOf topic = ⟨(jsTrim topic).data.drop 2⟩) ∧
    (isPrefixAt "r/".data (jsTrim topic).data = false →
        isPrefixAt "R/".data (jsTrim topic).data = false →
        sanitizedTopicOf topic = jsTrim topic) ∧
    topicUrl topic = "https://www.reddit.com" ++ "/r/" ++ sanitizedTopicOf topic ∧
    sanitizedTopicOf " r/r/pics " = "r/pics" := by
  refine ⟨?_, ?_, ?_, rfl, by decide⟩
  · intro h
    simp [sanitizedTopicOf, h]
  · intro h
    simp [sanitizedTopicOf, h]
  · intro h1 h2
    simp [sanitizedTopicOf, h1, h2]

/-- Witness for the amended C7: the lowercase marker is stripped once. -/
theorem sanitize_strips_one_marker_witness :
    sanitizedTopicOf "r/pics" = "pics" := by
  have h := (sanitize_strips_one_marker "r/pics").1 (by decide)
  rw [h]
  decide

end GapAnalyzer
